import Mathlib

/-!
Shallow embedding of the Vulkan instance/extension capability-negotiation
subsystem of Magnum (src/Magnum/Vk/Instance.cpp and Instance.h), together
with theorems settling the specification's claims about it.

Modelling conventions:

* C++ strings and Corrade StringViews are Lean String values; StringView
  operator< compares the bytes lexicographically (memcmp style), modelled
  by strLt below on the character data.
* std::lower_bound over a range sorted by < returns the first position whose
  element is not < the searched value; lowerBound below computes exactly
  that position for a sorted list (the only inputs the code passes to it).
* std::binary_search(first, last, v) is defined by the C++ standard as
  it != last && !(v < *it) for it = lower_bound(first, last, v);
  binarySearch transcribes that definition.
* std::sort is modelled by List.insertionSort: on plain strings any sorted
  permutation is the same list, and where element identity matters (the
  string-view block of InstanceExtensionProperties) a stable sort is one
  admissible execution of std::sort, whose order among equal elements is
  unspecified.
* A one-past-the-end dereference has no defined value in C++; an embedded
  function that can perform one returns Option and yields none exactly when
  the source would read past the end of the relevant array.
* Driver entry points (vkEnumerateInstanceVersion, layer and extension
  enumeration) are modelled by a Driver record.  A failed driver call is a
  fatal assert in the source (MAGNUM_VK_INTERNAL_ASSERT_RESULT) and is not
  modelled; all claims concern behaviour after successful queries.
-/

namespace Magnum.Vk

/-- Byte-wise character comparison, as memcmp performs on UTF-8 data. -/
def charLt (a b : Char) : Bool := decide (a.toNat < b.toNat)

/-- Lexicographic comparison of character data. -/
def ltChars : List Char → List Char → Bool
  | _, [] => false
  | [], _ :: _ => true
  | a :: as, b :: bs =>
      if charLt a b then true else if charLt b a then false else ltChars as bs

/-- Corrade StringView operator<: lexicographic byte comparison. -/
def strLt (a b : String) : Bool := ltChars a.data b.data

/-- Corrade StringView operator<=: a <= b iff not (b < a). -/
def strLe (a b : String) : Bool := !strLt b a

theorem charLt_irrefl (a : Char) : charLt a a = false := by
  simp [charLt]

theorem charLt_trans {a b c : Char} (h1 : charLt a b = true)
    (h2 : charLt b c = true) : charLt a c = true := by
  simp only [charLt, decide_eq_true_eq] at h1 h2 ⊢
  omega

theorem charLt_connex {a b : Char} (h1 : charLt a b = false)
    (h2 : charLt b a = false) : a = b := by
  simp only [charLt, decide_eq_false_iff_not, not_lt] at h1 h2
  have hn : a.toNat = b.toNat := le_antisymm h2 h1
  have := congrArg Char.ofNat hn
  rwa [Char.ofNat_toNat, Char.ofNat_toNat] at this

theorem ltChars_irrefl (l : List Char) : ltChars l l = false := by
  induction l with
  | nil => rfl
  | cons a as ih => simp [ltChars, charLt_irrefl, ih]

theorem ltChars_connex : ∀ as bs : List Char,
    ltChars as bs = false → ltChars bs as = false → as = bs := by
  intro as
  induction as with
  | nil =>
    intro bs h1 _
    cases bs with
    | nil => rfl
    | cons b bs => simp [ltChars] at h1
  | cons a as ih =>
    intro bs h1 h2
    cases bs with
    | nil => simp [ltChars] at h2
    | cons b bs =>
      by_cases hab : charLt a b = true
      · simp [ltChars, hab] at h1
      · by_cases hba : charLt b a = true
        · simp [ltChars, hba] at h2
        · have hab2 : charLt a b = false := by simpa using hab
          have hba2 : charLt b a = false := by simpa using hba
          have he : a = b := charLt_connex hab2 hba2
          have h1r : ltChars as bs = false := by
            simpa [ltChars, hab2, hba2] using h1
          have h2r : ltChars bs as = false := by
            simpa [ltChars, hab2, hba2] using h2
          rw [he, ih bs h1r h2r]

theorem ltChars_trans : ∀ as bs cs : List Char,
    ltChars as bs = true → ltChars bs cs = true → ltChars as cs = true := by
  intro as
  induction as with
  | nil =>
    intro bs cs h1 h2
    cases bs with
    | nil => simp [ltChars] at h1
    | cons b bs =>
      cases cs with
      | nil => simp [ltChars] at h2
      | cons c cs => simp [ltChars]
  | cons a as ih =>
    intro bs cs h1 h2
    cases bs with
    | nil => simp [ltChars] at h1
    | cons b bs =>
      cases cs with
      | nil => simp [ltChars] at h2
      | cons c cs =>
        by_cases hab : charLt a b = true
        · by_cases hbc : charLt b c = true
          · have hac := charLt_trans hab hbc
            simp [ltChars, hac]
          · by_cases hcb : charLt c b = true
            · simp [ltChars, hbc, hcb] at h2
            · have he : b = c := charLt_connex (by simpa using hbc)
                (by simpa using hcb)
              subst he
              simp [ltChars, hab]
        · by_cases hba : charLt b a = true
          · simp [ltChars, hab, hba] at h1
          · have he : a = b := charLt_connex (by simpa using hab)
              (by simpa using hba)
            subst he
            by_cases hac : charLt a c = true
            · simp [ltChars, hac]
            · by_cases hca : charLt c a = true
              · simp [ltChars, hac, hca] at h2
              · have h1r : ltChars as bs = true := by
                  simpa [ltChars, charLt_irrefl] using h1
                have h2r : ltChars bs cs = true := by
                  simpa [ltChars, hac, hca] using h2
                have hac2 : charLt a c = false := by simpa using hac
                have hca2 : charLt c a = false := by simpa using hca
                simp [ltChars, hac2, hca2, ih bs cs h1r h2r]

theorem strLt_irrefl (a : String) : strLt a a = false :=
  ltChars_irrefl a.data

theorem strLt_connex {a b : String} (h1 : strLt a b = false)
    (h2 : strLt b a = false) : a = b :=
  congrArg String.mk (ltChars_connex a.data b.data h1 h2)

theorem strLt_trans {a b c : String} (h1 : strLt a b = true)
    (h2 : strLt b c = true) : strLt a c = true :=
  ltChars_trans a.data b.data c.data h1 h2

theorem strLe_total (a b : String) : strLe a b = true ∨ strLe b a = true := by
  by_cases h : strLt b a = true
  · right
    have : strLt a b = false := by
      by_contra hc
      have hab : strLt a b = true := by simpa using hc
      have : strLt a a = true := strLt_trans hab h
      rw [strLt_irrefl] at this
      exact Bool.false_ne_true this
    simp [strLe, this]
  · left
    simp [strLe, Bool.not_eq_true] at h ⊢
    exact h

theorem strLe_trans {a b c : String} (h1 : strLe a b = true)
    (h2 : strLe b c = true) : strLe a c = true := by
  simp only [strLe, Bool.not_eq_true'] at h1 h2 ⊢
  by_contra hc
  have hca : strLt c a = true := by simpa using hc
  by_cases hbc : strLt b c = true
  · have hba : strLt b a = true := strLt_trans hbc hca
    rw [h1] at hba
    exact Bool.false_ne_true hba
  · have he : b = c := strLt_connex (by simpa using hbc) h2
    rw [← he] at hca
    rw [h1] at hca
    exact Bool.false_ne_true hca

instance : IsTotal String (fun a b => strLe a b = true) := ⟨strLe_total⟩

instance : IsTrans String (fun a b => strLe a b = true) :=
  ⟨fun _ _ _ => strLe_trans⟩

instance decRelStrLe : DecidableRel (fun a b : String => strLe a b = true) :=
  fun a b => inferInstanceAs (Decidable (strLe a b = true))

/-- std::lower_bound over a list of strings ordered by strLt.  On a sorted
list this is the first index whose element is not < the value, which is the
position std::lower_bound returns (Instance.cpp uses std::lower_bound at
lines 261 and 497, std::binary_search at lines 108, 370, 404 and 437). -/
def lowerBound (l : List String) (x : String) : Nat :=
  match l with
  | [] => 0
  | a :: rest => if strLt a x then lowerBound rest x + 1 else 0

/-- std::binary_search(first, last, v): with it = lower_bound(first, last, v),
the result is it != last && !(v < *it). -/
def binarySearch (l : List String) (x : String) : Bool :=
  match l.get? (lowerBound l x) with
  | none => false
  | some a => !strLt x a

theorem binarySearch_eq_true_iff_mem (l : List String)
    (hs : List.Sorted (fun a b => strLe a b = true) l) (x : String) :
    binarySearch l x = true ↔ x ∈ l := by
  induction l with
  | nil => simp [binarySearch, lowerBound]
  | cons a rest ih =>
    rcases List.sorted_cons.mp hs with ⟨ha, hrest⟩
    by_cases h : strLt a x = true
    · have hxa : x ≠ a := by
        intro he
        rw [he, strLt_irrefl] at h
        exact Bool.false_ne_true h
      have hred : binarySearch (a :: rest) x = binarySearch rest x := by
        simp only [binarySearch, lowerBound, if_pos h, List.get?_cons_succ]
      rw [hred, ih hrest]
      simp [List.mem_cons, hxa]
    · have hax : strLt a x = false := by simpa using h
      have hred : binarySearch (a :: rest) x = !strLt x a := by
        have h0 : lowerBound (a :: rest) x = 0 := by simp [lowerBound, hax]
        simp [binarySearch, h0]
      rw [hred]
      constructor
      · intro hb
        have hxa : strLt x a = false := by simpa using hb
        have : a = x := strLt_connex hax hxa
        simp [this]
      · intro hmem
        rcases List.mem_cons.mp hmem with he | hm
        · simp [he, strLt_irrefl]
        · exact ha x hm

/-- VkLayerProperties as reported by vkEnumerateInstanceLayerProperties:
layerName, specVersion (a Vulkan-version-shaped value), implementationVersion
(the layer revision) and description. -/
structure VkLayerProperties where
  layerName : String
  specVersion : Nat
  implementationVersion : Nat
  description : String
deriving DecidableEq

/-- The driver surface consumed by InstanceProperties: whether the
vkEnumerateInstanceVersion entry point exists (it is absent on Vulkan 1.0
loaders), the version it reports, and the instance layer list. -/
structure Driver where
  hasEnumerateInstanceVersion : Bool
  instanceVersion : Nat
  instanceLayers : List VkLayerProperties
deriving DecidableEq

/-- Version{}: the zero value used as the "not yet queried" sentinel. -/
def VersionNone : Nat := 0

/-- Version::Vk10 = VK_MAKE_VERSION(1, 0, 0). -/
def Vk10 : Nat := 4194304

/-- Version::Vk11 = VK_MAKE_VERSION(1, 1, 0). -/
def Vk11 : Nat := 4198400

/-- Version::Vk12 = VK_MAKE_VERSION(1, 2, 0). -/
def Vk12 : Nat := 4202496

/-- State of an InstanceProperties object: the lazily populated version
(Version{} until queried) and layer array (null until queried).
versionQueries counts vkEnumerateInstanceVersion round trips, so that
"cached, no re-query" is expressible. -/
structure InstancePropertiesState where
  _version : Nat
  _layers : Option (List VkLayerProperties)
  versionQueries : Nat
deriving DecidableEq

namespace InstanceProperties

/-- State right after the InstanceProperties constructor (Instance.cpp:43-47):
nothing is populated yet. -/
def new : InstancePropertiesState := ⟨VersionNone, none, 0⟩

/-- InstanceProperties::populateVersion (Instance.cpp:49-54): if the driver
has vkEnumerateInstanceVersion, query it; else default to Version::Vk10. -/
def populateVersion (d : Driver) (s : InstancePropertiesState) :
    InstancePropertiesState :=
  if d.hasEnumerateInstanceVersion then
    { s with _version := d.instanceVersion, versionQueries := s.versionQueries + 1 }
  else
    { s with _version := Vk10 }

/-- InstanceProperties::version (Instance.cpp:90-93): populate if the cached
value is still the Version{} sentinel, then return the cached value. -/
def version (d : Driver) (s : InstancePropertiesState) :
    Nat × InstancePropertiesState :=
  let s2 := if s._version = VersionNone then populateVersion d s else s
  (s2._version, s2)

/-- InstanceProperties::isVersionSupported (Instance.cpp:95-98):
populate if needed, then return version <= _version. -/
def isVersionSupported (d : Driver) (v : Nat) (s : InstancePropertiesState) :
    Bool × InstancePropertiesState :=
  let s2 := if s._version = VersionNone then populateVersion d s else s
  (decide (v ≤ s2._version), s2)

/-- InstanceProperties::populateLayers (Instance.cpp:56-88): store the
queried records; the sorted string-view block derived from them is modelled
by sortedLayerNames below. -/
def populateLayers (d : Driver) (s : InstancePropertiesState) :
    InstancePropertiesState :=
  { s with _layers := some d.instanceLayers }

/-- The sorted name views built at the end of populateLayers
(Instance.cpp:83-88): one view per record, then std::sort. -/
def sortedLayerNames (ls : List VkLayerProperties) : List String :=
  List.insertionSort (fun a b => strLe a b = true)
    (ls.map VkLayerProperties.layerName)

/-- InstanceProperties::isLayerSupported (Instance.cpp:105-112): populate if
needed, then std::binary_search over the sorted name views. -/
def isLayerSupported (d : Driver) (layer : String)
    (s : InstancePropertiesState) : Bool × InstancePropertiesState :=
  let s2 := if s._layers = none then populateLayers d s else s
  (binarySearch (sortedLayerNames (s2._layers.getD [])) layer, s2)

/-- InstanceProperties::layer (Instance.cpp:119-126), operating on the
populated record array: the value, plus the diagnostic emitted on the Error
channel by CORRADE_ASSERT when the index is out of range (in which case the
returned value is the harmless default StringView{}). -/
def layer (ls : List VkLayerProperties) (id : Nat) : String × Option String :=
  if h : id < ls.length then ((ls.get ⟨id, h⟩).layerName, none)
  else ("", some ("Vk::InstanceProperties::layer(): index " ++ toString id ++
    " out of range for " ++ toString ls.length ++ " entries"))

/-- InstanceProperties::layerRevision (Instance.cpp:128-133). -/
def layerRevision (ls : List VkLayerProperties) (id : Nat) :
    Nat × Option String :=
  if h : id < ls.length then ((ls.get ⟨id, h⟩).implementationVersion, none)
  else (0, some ("Vk::InstanceProperties::layerRevision(): index " ++
    toString id ++ " out of range for " ++ toString ls.length ++ " entries"))

/-- InstanceProperties::layerVersion (Instance.cpp:135-140); the harmless
default is Version{}, modelled as VersionNone. -/
def layerVersion (ls : List VkLayerProperties) (id : Nat) :
    Nat × Option String :=
  if h : id < ls.length then ((ls.get ⟨id, h⟩).specVersion, none)
  else (VersionNone, some ("Vk::InstanceProperties::layerVersion(): index " ++
    toString id ++ " out of range for " ++ toString ls.length ++ " entries"))

/-- InstanceProperties::layerDescription (Instance.cpp:142-147). -/
def layerDescription (ls : List VkLayerProperties) (id : Nat) :
    String × Option String :=
  if h : id < ls.length then ((ls.get ⟨id, h⟩).description, none)
  else ("", some ("Vk::InstanceProperties::layerDescription(): index " ++
    toString id ++ " out of range for " ++ toString ls.length ++ " entries"))

end InstanceProperties

/-- Claim C5: for every layer name string s, isLayerSupported(s) returns true
if and only if s is exactly equal to one of the layer names reported by the
driver; a strict prefix of a reported name that is not itself reported is not
supported, and the empty string is not supported unless the driver reports an
empty-named layer. -/
theorem claim_C5_isLayerSupported_exact_membership :
    ∀ (d : Driver) (s : String),
      ((InstanceProperties.isLayerSupported d s InstanceProperties.new).1 = true ↔
        s ∈ d.instanceLayers.map VkLayerProperties.layerName) ∧
      (∀ pre suf : String, suf ≠ "" →
        (pre ++ suf) ∈ d.instanceLayers.map VkLayerProperties.layerName →
        pre ∉ d.instanceLayers.map VkLayerProperties.layerName →
        (InstanceProperties.isLayerSupported d pre InstanceProperties.new).1 = false) ∧
      ("" ∉ d.instanceLayers.map VkLayerProperties.layerName →
        (InstanceProperties.isLayerSupported d "" InstanceProperties.new).1 = false) := by
  have key : ∀ (d : Driver) (s : String),
      (InstanceProperties.isLayerSupported d s InstanceProperties.new).1 = true ↔
        s ∈ d.instanceLayers.map VkLayerProperties.layerName := by
    intro d s
    have hsorted : List.Sorted (fun a b => strLe a b = true)
        (InstanceProperties.sortedLayerNames d.instanceLayers) :=
      List.sorted_insertionSort _ _
    have hmem := binarySearch_eq_true_iff_mem _ hsorted s
    have hperm : s ∈ InstanceProperties.sortedLayerNames d.instanceLayers ↔
        s ∈ d.instanceLayers.map VkLayerProperties.layerName :=
      List.mem_insertionSort _
    simp only [InstanceProperties.isLayerSupported, InstanceProperties.new,
      InstanceProperties.populateLayers]
    exact hmem.trans hperm
  intro d s
  refine ⟨key d s, ?_, ?_⟩
  · intro pre suf _ _ hpre
    have h := key d pre
    have : ¬ (InstanceProperties.isLayerSupported d pre InstanceProperties.new).1 = true :=
      fun hc => hpre (h.mp hc)
    simpa using this
  · intro hempty
    have h := key d ""
    have : ¬ (InstanceProperties.isLayerSupported d "" InstanceProperties.new).1 = true :=
      fun hc => hempty (h.mp hc)
    simpa using this

/-- Synthetic driver with layers A, B, C, used as the concrete instance for
the membership claim (mirroring the spec's synthetic-cache test). -/
def driverABC : Driver :=
  ⟨true, Vk11,
    [⟨"A", Vk10, 1, "layer A"⟩, ⟨"B", Vk10, 1, "layer B"⟩,
     ⟨"C", Vk10, 1, "layer C"⟩]⟩

/-- Witness for claim C5 at a concrete driver: B is supported, B_hello and
the empty string are not. -/
theorem claim_C5_witness :
    (InstanceProperties.isLayerSupported driverABC "B" InstanceProperties.new).1 = true ∧
    (InstanceProperties.isLayerSupported driverABC "B_hello" InstanceProperties.new).1 = false ∧
    (InstanceProperties.isLayerSupported driverABC "" InstanceProperties.new).1 = false := by
  have h1 := claim_C5_isLayerSupported_exact_membership driverABC "B"
  have h2 := claim_C5_isLayerSupported_exact_membership driverABC "B_hello"
  have h3 := claim_C5_isLayerSupported_exact_membership driverABC ""
  refine ⟨h1.1.mpr (by decide), ?_, h3.2.2 (by decide)⟩
  rw [← Bool.not_eq_true]
  exact fun hc => absurd (h2.1.mp hc) (by decide)

/-- Claim C6: version() returns the lowest known version Vk10 when the driver
lacks vkEnumerateInstanceVersion and the driver-reported version otherwise;
once populated, a later call returns the same value with the state (including
the driver query count) unchanged; and isVersionSupported(v) is true exactly
when the cached version is at least v. -/
theorem claim_C6_version_default_cached_compare :
    ∀ d : Driver,
      (d.hasEnumerateInstanceVersion = false →
        (InstanceProperties.version d InstanceProperties.new).1 = Vk10) ∧
      (d.hasEnumerateInstanceVersion = true →
        (InstanceProperties.version d InstanceProperties.new).1 = d.instanceVersion) ∧
      ((d.hasEnumerateInstanceVersion = true → d.instanceVersion ≠ VersionNone) →
        ∀ s : InstancePropertiesState,
          InstanceProperties.version d (InstanceProperties.version d s).2 =
            ((InstanceProperties.version d s).1, (InstanceProperties.version d s).2)) ∧
      (∀ (v : Nat) (s : InstancePropertiesState),
        (InstanceProperties.isVersionSupported d v s).1 =
          decide (v ≤ (InstanceProperties.version d s).1)) := by
  intro d
  refine ⟨?_, ?_, ?_, ?_⟩
  · intro h
    simp [InstanceProperties.version, InstanceProperties.new,
      InstanceProperties.populateVersion, h]
  · intro h
    simp [InstanceProperties.version, InstanceProperties.new,
      InstanceProperties.populateVersion, h]
  · intro hconform s
    by_cases h0 : s._version = VersionNone
    · by_cases hfn : d.hasEnumerateInstanceVersion
      · have hnz : d.instanceVersion ≠ VersionNone := hconform hfn
        simp [InstanceProperties.version, InstanceProperties.populateVersion,
          h0, hfn, hnz]
      · have hnz : Vk10 ≠ VersionNone := by decide
        simp [InstanceProperties.version, InstanceProperties.populateVersion,
          h0, hfn, hnz]
    · simp [InstanceProperties.version, h0]
  · intro v s
    by_cases h0 : s._version = VersionNone
    · simp [InstanceProperties.version, InstanceProperties.isVersionSupported, h0]
    · simp [InstanceProperties.version, InstanceProperties.isVersionSupported, h0]

/-- Witness for claim C6 at a concrete conforming driver: the reported
version is returned and the second call is a pure cache hit. -/
theorem claim_C6_witness :
    (InstanceProperties.version ⟨true, Vk11, []⟩ InstanceProperties.new).1 = Vk11 ∧
    InstanceProperties.version ⟨true, Vk11, []⟩
        (InstanceProperties.version ⟨true, Vk11, []⟩ InstanceProperties.new).2 =
      ((InstanceProperties.version ⟨true, Vk11, []⟩ InstanceProperties.new).1,
       (InstanceProperties.version ⟨true, Vk11, []⟩ InstanceProperties.new).2) :=
  ⟨(claim_C6_version_default_cached_compare ⟨true, Vk11, []⟩).2.1 rfl,
   (claim_C6_version_default_cached_compare ⟨true, Vk11, []⟩).2.2.1
     (fun _ => by decide) InstanceProperties.new⟩

/-- VkExtensionProperties as reported by
vkEnumerateInstanceExtensionProperties: extensionName and specVersion (a
plain revision number despite the name). -/
structure VkExtensionProperties where
  extensionName : String
  specVersion : Nat
deriving DecidableEq

/-- The physical extension buffer built by the
InstanceExtensionProperties constructor (Instance.cpp:181-227): the
concatenation of the per-source query results, each record stamped with its
source index (0 = global extensions, i = i-th layer passed to the
constructor), in exactly that order.  The sources list is the global list
followed by one list per layer. -/
def gatherExtensions (sources : List (List VkExtensionProperties)) :
    List (VkExtensionProperties × Nat) :=
  (sources.enum.map (fun p => p.2.map (fun e => (e, p.1)))).flatten

/-- State of an InstanceExtensionProperties object: the physical record
buffer with layer stamps.  The sorted string-view block and the unique
count are derived by sortedExtensionViews and uniqueExtensionViews. -/
structure InstanceExtensionPropertiesState where
  _extensions : List (VkExtensionProperties × Nat)
deriving DecidableEq

instance decRelViewLe : DecidableRel
    (fun a b : VkExtensionProperties × Nat =>
      strLe a.1.extensionName b.1.extensionName = true) :=
  fun a b =>
    inferInstanceAs (Decidable (strLe a.1.extensionName b.1.extensionName = true))

namespace InstanceExtensionProperties

/-- InstanceExtensionProperties constructor (Instance.cpp:181-227) fed by
the per-source driver query results: global extensions plus one list per
requested layer. -/
def construct (globalExts : List VkExtensionProperties)
    (layerExts : List (List VkExtensionProperties)) :
    InstanceExtensionPropertiesState :=
  ⟨gatherExtensions (globalExts :: layerExts)⟩

/-- The string-view block after std::sort (Instance.cpp:223-225): one view
per physical record, sorted by the pointed-to name.  std::sort leaves the
order among equal names unspecified; the stable insertion sort is one
admissible execution. -/
def sortedExtensionViews (s : InstanceExtensionPropertiesState) :
    List (VkExtensionProperties × Nat) :=
  List.insertionSort
    (fun a b => strLe a.1.extensionName b.1.extensionName = true) s._extensions

/-- Helper for collapseRuns: drops successive views whose name equals the
name of the view kept last. -/
def collapseAux (x : VkExtensionProperties × Nat) :
    List (VkExtensionProperties × Nat) → List (VkExtensionProperties × Nat)
  | [] => []
  | y :: ys =>
      if y.1.extensionName = x.1.extensionName then collapseAux x ys
      else y :: collapseAux y ys

/-- std::unique on consecutive equal names (Instance.cpp:226): keeps the
first view of each run; _uniqueExtensionCount is the length of the result.
The views at positions past the unique count are left with unspecified
values by std::unique. -/
def collapseRuns : List (VkExtensionProperties × Nat) →
    List (VkExtensionProperties × Nat)
  | [] => []
  | x :: xs => x :: collapseAux x xs

/-- The unique sorted view range [begin, begin + _uniqueExtensionCount). -/
def uniqueExtensionViews (s : InstanceExtensionPropertiesState) :
    List (VkExtensionProperties × Nat) :=
  collapseRuns (sortedExtensionViews s)

/-- std::lower_bound over extension views compared by name. -/
def lowerBoundViews (l : List (VkExtensionProperties × Nat)) (x : String) :
    Nat :=
  match l with
  | [] => 0
  | a :: rest =>
      if strLt a.1.extensionName x then lowerBoundViews rest x + 1 else 0

/-- InstanceExtensionProperties::extensionRevision(StringView)
(Instance.cpp:258-270): lower_bound over the sorted unique view range, then
the found iterator is dereferenced (via the offsetof trick recovering the
VkExtensionProperties record the view points into) BEFORE checking that it
matched.  When lower_bound lands one past the unique range the source reads
an unspecified leftover view (or memory past the whole view block); that
dereference has no defined result and is modelled as none.  All well-defined
paths return some: some 0 on a mismatch, otherwise some revision. -/
def extensionRevisionForName (s : InstanceExtensionPropertiesState)
    (ext : String) : Option Nat :=
  let u := uniqueExtensionViews s
  match u.get? (lowerBoundViews u ext) with
  | none => none
  | some v => if v.1.extensionName ≠ ext then some 0 else some v.1.specVersion

/-- InstanceExtensionProperties::extension (Instance.cpp:242-248), on the
physical buffer, with the CORRADE_ASSERT diagnostic for an out-of-range
index. -/
def extensionAt (s : InstanceExtensionPropertiesState) (id : Nat) :
    String × Option String :=
  if h : id < s._extensions.length then
    ((s._extensions.get ⟨id, h⟩).1.extensionName, none)
  else ("", some ("Vk::InstanceExtensionProperties::extension(): index " ++
    toString id ++ " out of range for " ++ toString s._extensions.length ++
    " entries"))

/-- InstanceExtensionProperties::extensionRevision(UnsignedInt)
(Instance.cpp:250-256). -/
def extensionRevisionAt (s : InstanceExtensionPropertiesState) (id : Nat) :
    Nat × Option String :=
  if h : id < s._extensions.length then
    ((s._extensions.get ⟨id, h⟩).1.specVersion, none)
  else (0, some ("Vk::InstanceExtensionProperties::extensionRevision(): index " ++
    toString id ++ " out of range for " ++ toString s._extensions.length ++
    " entries"))

/-- InstanceExtensionProperties::extensionLayer (Instance.cpp:272-276). -/
def extensionLayerAt (s : InstanceExtensionPropertiesState) (id : Nat) :
    Nat × Option String :=
  if h : id < s._extensions.length then
    ((s._extensions.get ⟨id, h⟩).2, none)
  else (0, some ("Vk::InstanceExtensionProperties::extensionLayer(): index " ++
    toString id ++ " out of range for " ++ toString s._extensions.length ++
    " entries"))

end InstanceExtensionProperties

/-- Claim C7: each index-based accessor called with an index at or past the
respective count emits a diagnostic naming the function, the offending index
and the valid count, and returns the harmless default; in range no
diagnostic is emitted. -/
theorem claim_C7_out_of_range_accessors :
    ∀ (ls : List VkLayerProperties) (s : InstanceExtensionPropertiesState)
      (id : Nat), ls.length ≤ id → s._extensions.length ≤ id →
      InstanceProperties.layer ls id = ("",
        some ("Vk::InstanceProperties::layer(): index " ++ toString id ++
          " out of range for " ++ toString ls.length ++ " entries")) ∧
      InstanceProperties.layerRevision ls id = (0,
        some ("Vk::InstanceProperties::layerRevision(): index " ++ toString id ++
          " out of range for " ++ toString ls.length ++ " entries")) ∧
      InstanceProperties.layerVersion ls id = (VersionNone,
        some ("Vk::InstanceProperties::layerVersion(): index " ++ toString id ++
          " out of range for " ++ toString ls.length ++ " entries")) ∧
      InstanceProperties.layerDescription ls id = ("",
        some ("Vk::InstanceProperties::layerDescription(): index " ++ toString id ++
          " out of range for " ++ toString ls.length ++ " entries")) ∧
      InstanceExtensionProperties.extensionAt s id = ("",
        some ("Vk::InstanceExtensionProperties::extension(): index " ++
          toString id ++ " out of range for " ++
          toString s._extensions.length ++ " entries")) ∧
      InstanceExtensionProperties.extensionRevisionAt s id = (0,
        some ("Vk::InstanceExtensionProperties::extensionRevision(): index " ++
          toString id ++ " out of range for " ++
          toString s._extensions.length ++ " entries")) ∧
      InstanceExtensionProperties.extensionLayerAt s id = (0,
        some ("Vk::InstanceExtensionProperties::extensionLayer(): index " ++
          toString id ++ " out of range for " ++
          toString s._extensions.length ++ " entries")) := by
  intro ls s id hl he
  have hnl : ¬ id < ls.length := Nat.not_lt.mpr hl
  have hne : ¬ id < s._extensions.length := Nat.not_lt.mpr he
  refine ⟨?_, ?_, ?_, ?_, ?_, ?_, ?_⟩ <;>
    simp [InstanceProperties.layer, InstanceProperties.layerRevision,
      InstanceProperties.layerVersion, InstanceProperties.layerDescription,
      InstanceExtensionProperties.extensionAt,
      InstanceExtensionProperties.extensionRevisionAt,
      InstanceExtensionProperties.extensionLayerAt, hnl, hne]

/-- Witness for claim C7 at empty caches and index 0: the exact diagnostics
and default return values. -/
theorem claim_C7_witness :
    InstanceProperties.layer [] 0 = ("",
      some "Vk::InstanceProperties::layer(): index 0 out of range for 0 entries") ∧
    InstanceExtensionProperties.extensionRevisionAt ⟨[]⟩ 0 = (0,
      some "Vk::InstanceExtensionProperties::extensionRevision(): index 0 out of range for 0 entries") := by
  have h := claim_C7_out_of_range_accessors [] ⟨[]⟩ 0 (by decide) (by decide)
  exact ⟨by rw [h.1]; decide, by rw [h.2.2.2.2.2.1]; decide⟩

/-- Cache over a driver reporting a single global extension VK_KHR_surface
at revision 25 and no layers; all names are unique, so the unique view count
equals the total count and nothing lies between the unique range and the end
of the view block. -/
def surfaceOnlyProps : InstanceExtensionPropertiesState :=
  InstanceExtensionProperties.construct [⟨"VK_KHR_surface", 25⟩] []

/-- Cache where the global list and one layer both offer VK_KHR_surface, at
revisions 25 (global, input order first) and 30 (layer 1). -/
def surfaceDupProps : InstanceExtensionPropertiesState :=
  InstanceExtensionProperties.construct [⟨"VK_KHR_surface", 25⟩]
    [[⟨"VK_KHR_surface", 30⟩]]

/-- Claim C2, evaluated at concrete inputs: a supported name yields the
driver-reported revision of the first source in input order (global first,
also when a layer duplicates the name); an unsupported name that sorts
before some supported name yields the well-defined 0; but an unsupported
name that sorts after every supported name makes the code dereference the
lower_bound result one past the unique view range, which has no defined
value (none) -- not the 0 the claim states. -/
theorem claim_C2_extensionRevision_boundary :
    InstanceExtensionProperties.extensionRevisionForName surfaceOnlyProps
      "VK_KHR_surface" = some 25 ∧
    InstanceExtensionProperties.extensionRevisionForName surfaceDupProps
      "VK_KHR_surface" = some 25 ∧
    InstanceExtensionProperties.extensionRevisionForName surfaceOnlyProps
      "VK_AAA_absent" = some 0 ∧
    InstanceExtensionProperties.extensionRevisionForName surfaceOnlyProps
      "VK_ZZZ_nonexistent" = none := by decide

/-- A runtime instance extension descriptor: the stable index into the
global bitset index space and the name string (Instance.h:177-206). -/
structure InstanceExtension where
  index : Nat
  string : String
deriving DecidableEq

/-- Modelled from the spec: the compile-time descriptor data behind the
catalog partition for extensions belonging to no core version
(Instance.cpp:154-158 lists Extensions::EXT::debug_report, debug_utils,
validation_features, but Extensions.h, which defines each InstanceIndex and
name string, is not among the sources).  Name strings follow the Vulkan
names of those identifiers as used in the repository's tests; stable
indices are assigned distinct values in declaration order within the global
index space of size 16 (Instance.h:47). -/
def InstanceExtensions : List InstanceExtension :=
  [⟨0, "VK_EXT_debug_report"⟩, ⟨1, "VK_EXT_debug_utils"⟩,
   ⟨2, "VK_EXT_validation_features"⟩]

/-- Modelled from the spec: the catalog partition for Vulkan 1.1
(Instance.cpp:159-165), with the same conventions as InstanceExtensions. -/
def InstanceExtensions11 : List InstanceExtension :=
  [⟨3, "VK_KHR_device_group_creation"⟩,
   ⟨4, "VK_KHR_external_fence_capabilities"⟩,
   ⟨5, "VK_KHR_external_memory_capabilities"⟩,
   ⟨6, "VK_KHR_external_semaphore_capabilities"⟩,
   ⟨7, "VK_KHR_get_physical_device_properties2"⟩]

/-- The two catalog partitions iterated by Instance::initialize
(Instance.cpp:493-496). -/
def instanceExtensionCatalog : List (List InstanceExtension) :=
  [InstanceExtensions, InstanceExtensions11]

/-- std::lower_bound over a catalog partition, comparing descriptor names
to the searched string (the comparator at Instance.cpp:497-499). -/
def lowerBoundExts (l : List InstanceExtension) (x : String) : Nat :=
  match l with
  | [] => 0
  | a :: rest => if strLt a.string x then lowerBoundExts rest x + 1 else 0

/-- One enabled name against one catalog partition, the body of the inner
loop of Instance::initialize (Instance.cpp:497-502): lower_bound by name,
then found->string() is dereferenced BEFORE any end-of-range check.  When
found is the partition end that read is one past the end of a fixed-size
constexpr array and has no defined result (none); otherwise a mismatch
leaves the bitset unchanged and a match sets bit found->index(). -/
def markExtension (bits : Finset Nat) (partition : List InstanceExtension)
    (e : String) : Option (Finset Nat) :=
  match partition.get? (lowerBoundExts partition e) with
  | none => none
  | some found =>
      if found.string ≠ e then some bits else some (insert found.index bits)

/-- The bitset computation of Instance::initialize (Instance.cpp:487-504):
every enabled extension name is matched against every catalog partition,
starting from the zero bitset; none propagates an undefined out-of-bounds
read. -/
def initializeBits (catalog : List (List InstanceExtension))
    (enabled : List String) : Option (Finset Nat) :=
  enabled.foldlM
    (fun bits e => catalog.foldlM (fun b p => markExtension b p e) bits) ∅

/-- Instance state: handle (none = null), the
HandleFlag::DestroyOnDestruction ownership flag, the active-extension
bitset, and the function-pointer table (abstracted to a number; 0 models
the zero-filled table). -/
structure InstanceState where
  _handle : Option Nat
  _flags : Bool
  _extensionStatus : Finset Nat
  _functionPointers : Nat
deriving DecidableEq

namespace Instance

/-- Instance::isExtensionEnabled (Instance.h:595-603): O(1) bitset test by
the extension's stable index. -/
def isExtensionEnabled (s : InstanceState) (e : InstanceExtension) : Bool :=
  decide (e.index ∈ s._extensionStatus)

end Instance

/-- Claim C1, evaluated at concrete inputs: enabling the catalog extension
VK_EXT_debug_report together with a catalog-unknown name that sorts inside
both partitions sets exactly the debug_report bit (the unknown name sets no
bit and has no effect on isExtensionEnabled queries); but enabling
VK_KHR_get_physical_device_properties2 -- a catalog extension -- makes the
matching loop dereference the lower_bound result one past the end of the
versionless partition (every VK_KHR name sorts after all of its entries),
which has no defined value (none), instead of the claimed well-defined
bitset. -/
theorem claim_C1_initialize_bitset_boundary :
    initializeBits instanceExtensionCatalog
      ["VK_EXT_debug_report", "VK_EXT_not_in_the_catalog"] = some {0} ∧
    Instance.isExtensionEnabled ⟨some 1, true, {0}, 7⟩
      ⟨0, "VK_EXT_debug_report"⟩ = true ∧
    Instance.isExtensionEnabled ⟨some 1, true, {0}, 7⟩
      ⟨2, "VK_EXT_validation_features"⟩ = false ∧
    initializeBits instanceExtensionCatalog
      ["VK_KHR_get_physical_device_properties2"] = none := by decide

theorem binarySearch_eq_decide_mem (l : List String)
    (hs : List.Sorted (fun a b => strLe a b = true) l) (x : String) :
    binarySearch l x = decide (x ∈ l) := by
  by_cases h : x ∈ l
  · simp [h, (binarySearch_eq_true_iff_mem l hs x).mpr h]
  · have h2 : decide (x ∈ l) = false := by simp [h]
    rw [h2, ← Bool.not_eq_true]
    exact fun hc => h ((binarySearch_eq_true_iff_mem l hs x).mp hc)

/-- Builder state of InstanceCreateInfo: the sorted blacklists retained from
the command line (Instance.cpp:308-325), the accumulated enabled layer and
extension name lists (_state->layers/_state->extensions), whether the name
pointer arrays of the wrapped VkInstanceCreateInfo have been set (they are
null in the zero-filled _info until a non-empty add call routes them to the
allocated arrays), the enabled counts, and the verbose-log flag. -/
structure InstanceCreateInfoState where
  disabledLayers : List String
  disabledExtensions : List String
  layers : List String
  extensions : List String
  layersArraySet : Bool
  extensionsArraySet : Bool
  enabledLayerCount : Nat
  enabledExtensionCount : Nat
  verboseLog : Bool
deriving DecidableEq

/-- One builder mutation: the three addEnabled overloads relevant to the
enabled-name lists (Instance.cpp:362, 396, 430). -/
inductive BuilderCall where
  | addLayers (names : List String)
  | addExtensions (names : List String)
  | addExtensionsTyped (exts : List InstanceExtension)
deriving DecidableEq

namespace InstanceCreateInfo

/-- InstanceCreateInfo constructor (Instance.cpp:289-337) after argument
parsing: the blacklists are the split --magnum-disable-layers /
--magnum-disable-extensions word lists, sorted (Instance.cpp:312-325);
everything else is empty or zero, and the name-pointer arrays of the
zero-filled _info are null.  (The --magnum-enable-instance-layers /
--magnum-enable-instance-extensions whitelists are then routed through
addEnabledLayers/addEnabledExtensions, Instance.cpp:335-336, i.e. through
the very functions modelled below.) -/
def construct (verbose : Bool)
    (disabledLayers disabledExtensions : List String) :
    InstanceCreateInfoState :=
  ⟨List.insertionSort (fun a b => strLe a b = true) disabledLayers,
   List.insertionSort (fun a b => strLe a b = true) disabledExtensions,
   [], [], false, false, 0, 0, verbose⟩

/-- InstanceCreateInfo::addEnabledLayers (Instance.cpp:362-390): an empty
input returns immediately; otherwise every candidate not found by
std::binary_search in the sorted blacklist is appended in order, and the
count and the (now allocated, non-null) pointer array are updated. -/
def addEnabledLayers (s : InstanceCreateInfoState) (names : List String) :
    InstanceCreateInfoState :=
  if names = [] then s
  else
    let newLayers :=
      s.layers ++ names.filter (fun n => !binarySearch s.disabledLayers n)
    { s with layers := newLayers, layersArraySet := true,
             enabledLayerCount := newLayers.length }

/-- InstanceCreateInfo::addEnabledExtensions(StringView list)
(Instance.cpp:396-424), same shape as addEnabledLayers. -/
def addEnabledExtensions (s : InstanceCreateInfoState)
    (names : List String) : InstanceCreateInfoState :=
  if names = [] then s
  else
    let newExts :=
      s.extensions ++ names.filter (fun n => !binarySearch s.disabledExtensions n)
    { s with extensions := newExts, extensionsArraySet := true,
             enabledExtensionCount := newExts.length }

/-- InstanceCreateInfo::addEnabledExtensions(InstanceExtension list)
(Instance.cpp:430-447): filters on extension.string() and appends the
descriptor's (global) name string. -/
def addEnabledExtensionsTyped (s : InstanceCreateInfoState)
    (exts : List InstanceExtension) : InstanceCreateInfoState :=
  if exts = [] then s
  else
    let newExts := s.extensions ++
      (exts.filter (fun e => !binarySearch s.disabledExtensions e.string)).map
        InstanceExtension.string
    { s with extensions := newExts, extensionsArraySet := true,
             enabledExtensionCount := newExts.length }

/-- Dispatch of one builder call. -/
def applyCall (s : InstanceCreateInfoState) (c : BuilderCall) :
    InstanceCreateInfoState :=
  match c with
  | BuilderCall.addLayers ns => addEnabledLayers s ns
  | BuilderCall.addExtensions ns => addEnabledExtensions s ns
  | BuilderCall.addExtensionsTyped es => addEnabledExtensionsTyped s es

/-- A sequence of builder calls applied in order. -/
def applyCalls (s : InstanceCreateInfoState) (cs : List BuilderCall) :
    InstanceCreateInfoState :=
  cs.foldl applyCall s

/-- All layer name candidates of a call sequence, in call order. -/
def layerCandidates : List BuilderCall → List String
  | [] => []
  | BuilderCall.addLayers ns :: cs => ns ++ layerCandidates cs
  | _ :: cs => layerCandidates cs

/-- All extension name candidates of a call sequence, in call order. -/
def extensionCandidates : List BuilderCall → List String
  | [] => []
  | BuilderCall.addExtensions ns :: cs => ns ++ extensionCandidates cs
  | BuilderCall.addExtensionsTyped es :: cs =>
      es.map InstanceExtension.string ++ extensionCandidates cs
  | _ :: cs => extensionCandidates cs

theorem map_string_filter (bl : List String) (exts : List InstanceExtension) :
    (exts.filter (fun e => !binarySearch bl e.string)).map
        InstanceExtension.string =
      (exts.map InstanceExtension.string).filter
        (fun n => !binarySearch bl n) := by
  induction exts with
  | nil => rfl
  | cons e es ih =>
    by_cases h : binarySearch bl e.string = true <;>
      simp [List.filter_cons, h, ih]

theorem addEnabledLayers_spec (s : InstanceCreateInfoState)
    (ns : List String)
    (hs : List.Sorted (fun a b => strLe a b = true) s.disabledLayers) :
    (addEnabledLayers s ns).layers =
      s.layers ++ ns.filter (fun n => decide (n ∉ s.disabledLayers)) := by
  have hf : ns.filter (fun n => !binarySearch s.disabledLayers n) =
      ns.filter (fun n => decide (n ∉ s.disabledLayers)) := by
    apply List.filter_congr
    intro x _
    rw [binarySearch_eq_decide_mem _ hs, ← decide_not]
  by_cases h : ns = []
  · subst h
    simp [addEnabledLayers]
  · simp [addEnabledLayers, h, hf]

theorem addEnabledExtensions_spec (s : InstanceCreateInfoState)
    (ns : List String)
    (hs : List.Sorted (fun a b => strLe a b = true) s.disabledExtensions) :
    (addEnabledExtensions s ns).extensions =
      s.extensions ++ ns.filter (fun n => decide (n ∉ s.disabledExtensions)) := by
  have hf : ns.filter (fun n => !binarySearch s.disabledExtensions n) =
      ns.filter (fun n => decide (n ∉ s.disabledExtensions)) := by
    apply List.filter_congr
    intro x _
    rw [binarySearch_eq_decide_mem _ hs, ← decide_not]
  by_cases h : ns = []
  · subst h
    simp [addEnabledExtensions]
  · simp [addEnabledExtensions, h, hf]

theorem addEnabledExtensionsTyped_spec (s : InstanceCreateInfoState)
    (es : List InstanceExtension)
    (hs : List.Sorted (fun a b => strLe a b = true) s.disabledExtensions) :
    (addEnabledExtensionsTyped s es).extensions =
      s.extensions ++ (es.map InstanceExtension.string).filter
        (fun n => decide (n ∉ s.disabledExtensions)) := by
  have hf : (es.map InstanceExtension.string).filter
        (fun n => !binarySearch s.disabledExtensions n) =
      (es.map InstanceExtension.string).filter
        (fun n => decide (n ∉ s.disabledExtensions)) := by
    apply List.filter_congr
    intro x _
    rw [binarySearch_eq_decide_mem _ hs, ← decide_not]
  by_cases h : es = []
  · subst h
    simp [addEnabledExtensionsTyped]
  · simp [addEnabledExtensionsTyped, h, map_string_filter, hf]

theorem applyCall_preserves (s : InstanceCreateInfoState) (c : BuilderCall) :
    (applyCall s c).disabledLayers = s.disabledLayers ∧
    (applyCall s c).disabledExtensions = s.disabledExtensions := by
  cases c with
  | addLayers ns =>
    by_cases h : ns = [] <;> simp [applyCall, addEnabledLayers, h]
  | addExtensions ns =>
    by_cases h : ns = [] <;> simp [applyCall, addEnabledExtensions, h]
  | addExtensionsTyped es =>
    by_cases h : es = [] <;> simp [applyCall, addEnabledExtensionsTyped, h]

end InstanceCreateInfo

/-- Claim C3: across any sequence of addEnabledLayers /
addEnabledExtensions calls, the resulting enabled-name lists are exactly the
concatenations, in call order, of the candidate names not present in the
corresponding (sorted) blacklist; blacklisted names are dropped without any
error channel, and duplicates are preserved. -/
theorem claim_C3_builder_blacklist_filtering :
    ∀ (s : InstanceCreateInfoState) (cs : List BuilderCall),
      List.Sorted (fun a b => strLe a b = true) s.disabledLayers →
      List.Sorted (fun a b => strLe a b = true) s.disabledExtensions →
      (InstanceCreateInfo.applyCalls s cs).layers =
        s.layers ++ (InstanceCreateInfo.layerCandidates cs).filter
          (fun n => decide (n ∉ s.disabledLayers)) ∧
      (InstanceCreateInfo.applyCalls s cs).extensions =
        s.extensions ++ (InstanceCreateInfo.extensionCandidates cs).filter
          (fun n => decide (n ∉ s.disabledExtensions)) := by
  intro s cs
  induction cs generalizing s with
  | nil =>
    intro _ _
    simp [InstanceCreateInfo.applyCalls, InstanceCreateInfo.layerCandidates,
      InstanceCreateInfo.extensionCandidates]
  | cons c cs ih =>
    intro hl he
    have hpres := InstanceCreateInfo.applyCall_preserves s c
    have hl2 : List.Sorted (fun a b => strLe a b = true)
        (InstanceCreateInfo.applyCall s c).disabledLayers := by
      rw [hpres.1]; exact hl
    have he2 : List.Sorted (fun a b => strLe a b = true)
        (InstanceCreateInfo.applyCall s c).disabledExtensions := by
      rw [hpres.2]; exact he
    have hstep : InstanceCreateInfo.applyCalls s (c :: cs) =
        InstanceCreateInfo.applyCalls (InstanceCreateInfo.applyCall s c) cs := by
      simp [InstanceCreateInfo.applyCalls]
    have hih := ih (InstanceCreateInfo.applyCall s c) hl2 he2
    rw [hstep]
    constructor
    · rw [hih.1, hpres.1]
      cases c with
      | addLayers ns =>
        rw [show InstanceCreateInfo.applyCall s (BuilderCall.addLayers ns) =
            InstanceCreateInfo.addEnabledLayers s ns from rfl,
          InstanceCreateInfo.addEnabledLayers_spec s ns hl]
        simp [InstanceCreateInfo.layerCandidates, List.filter_append,
          List.append_assoc]
      | addExtensions ns =>
        have : (InstanceCreateInfo.applyCall s
            (BuilderCall.addExtensions ns)).layers = s.layers := by
          by_cases h : ns = [] <;>
            simp [InstanceCreateInfo.applyCall,
              InstanceCreateInfo.addEnabledExtensions, h]
        rw [this]
        simp [InstanceCreateInfo.layerCandidates]
      | addExtensionsTyped es =>
        have : (InstanceCreateInfo.applyCall s
            (BuilderCall.addExtensionsTyped es)).layers = s.layers := by
          by_cases h : es = [] <;>
            simp [InstanceCreateInfo.applyCall,
              InstanceCreateInfo.addEnabledExtensionsTyped, h]
        rw [this]
        simp [InstanceCreateInfo.layerCandidates]
    · rw [hih.2, hpres.2]
      cases c with
      | addLayers ns =>
        have : (InstanceCreateInfo.applyCall s
            (BuilderCall.addLayers ns)).extensions = s.extensions := by
          by_cases h : ns = [] <;>
            simp [InstanceCreateInfo.applyCall,
              InstanceCreateInfo.addEnabledLayers, h]
        rw [this]
        simp [InstanceCreateInfo.extensionCandidates]
      | addExtensions ns =>
        rw [show (InstanceCreateInfo.applyCall s
            (BuilderCall.addExtensions ns)) =
            InstanceCreateInfo.addEnabledExtensions s ns from rfl,
          InstanceCreateInfo.addEnabledExtensions_spec s ns he]
        simp [InstanceCreateInfo.extensionCandidates, List.filter_append,
          List.append_assoc]
      | addExtensionsTyped es =>
        rw [show (InstanceCreateInfo.applyCall s
            (BuilderCall.addExtensionsTyped es)) =
            InstanceCreateInfo.addEnabledExtensionsTyped s es from rfl,
          InstanceCreateInfo.addEnabledExtensionsTyped_spec s es he]
        simp [InstanceCreateInfo.extensionCandidates, List.filter_append,
          List.append_assoc]

/-- Witness for claim C3, matching the spec's test: blacklist X plus a layer
blacklist X, addExtensions([X, Y]) leaves only Y; layer candidates L, X, L
leave the duplicate-preserving L, L. -/
theorem claim_C3_witness :
    (InstanceCreateInfo.applyCalls
        (InstanceCreateInfo.construct false ["X"] ["X"])
        [BuilderCall.addExtensions ["X", "Y"],
         BuilderCall.addLayers ["L", "X", "L"]]).extensions = ["Y"] ∧
    (InstanceCreateInfo.applyCalls
        (InstanceCreateInfo.construct false ["X"] ["X"])
        [BuilderCall.addExtensions ["X", "Y"],
         BuilderCall.addLayers ["L", "X", "L"]]).layers = ["L", "L"] := by
  have h := claim_C3_builder_blacklist_filtering
    (InstanceCreateInfo.construct false ["X"] ["X"])
    [BuilderCall.addExtensions ["X", "Y"],
     BuilderCall.addLayers ["L", "X", "L"]]
    (by decide) (by decide)
  refine ⟨?_, ?_⟩
  · rw [h.2]; decide
  · rw [h.1]; decide

/-- Claim C9: calling addEnabledLayers or either addEnabledExtensions
overload with an empty list is a complete no-op on the whole builder state;
in particular on a fresh builder the counts stay zero and the name pointer
arrays stay unset. -/
theorem claim_C9_empty_add_is_noop :
    (∀ s : InstanceCreateInfoState,
      InstanceCreateInfo.addEnabledLayers s [] = s ∧
      InstanceCreateInfo.addEnabledExtensions s [] = s ∧
      InstanceCreateInfo.addEnabledExtensionsTyped s [] = s) ∧
    (∀ (v : Bool) (dl de : List String),
      (InstanceCreateInfo.addEnabledLayers
        (InstanceCreateInfo.construct v dl de) []).layersArraySet = false ∧
      (InstanceCreateInfo.addEnabledLayers
        (InstanceCreateInfo.construct v dl de) []).enabledLayerCount = 0 ∧
      (InstanceCreateInfo.addEnabledExtensions
        (InstanceCreateInfo.construct v dl de) []).extensionsArraySet = false ∧
      (InstanceCreateInfo.addEnabledExtensions
        (InstanceCreateInfo.construct v dl de) []).enabledExtensionCount = 0) := by
  constructor
  · intro s
    refine ⟨?_, ?_, ?_⟩ <;>
      simp [InstanceCreateInfo.addEnabledLayers,
        InstanceCreateInfo.addEnabledExtensions,
        InstanceCreateInfo.addEnabledExtensionsTyped]
  · intro v dl de
    refine ⟨?_, ?_, ?_, ?_⟩ <;>
      simp [InstanceCreateInfo.addEnabledLayers,
        InstanceCreateInfo.addEnabledExtensions,
        InstanceCreateInfo.construct]

namespace Instance

/-- Instance move constructor (Instance.cpp:508-511): the destination copies
handle, flags and function pointers (the extension bitset member is
default-initialised to all zeros, it is not in the initialiser list); the
source handle is then nulled and its function pointers zeroed, while its
flags and bitset are left as they were.  First component: the new object,
second: the moved-from source. -/
def moveConstruct (other : InstanceState) : InstanceState × InstanceState :=
  (⟨other._handle, other._flags, ∅, other._functionPointers⟩,
   { other with _handle := none, _functionPointers := 0 })

/-- Instance move assignment (Instance.cpp:518-523): std::swap of handle,
flags and function pointers between the two objects; the extension bitsets
stay where they are.  First component: the assigned-to object, second: the
moved-from source. -/
def moveAssign (self other : InstanceState) : InstanceState × InstanceState :=
  ({ self with _handle := other._handle, _flags := other._flags,
               _functionPointers := other._functionPointers },
   { other with _handle := self._handle, _flags := self._flags,
                _functionPointers := self._functionPointers })

/-- Instance destructor (Instance.cpp:513-516): calls DestroyInstance only
when the handle is non-null and HandleFlag::DestroyOnDestruction is set.
Returns the handle it destroys, if any (none = the destructor is a no-op). -/
def destructorDestroys (s : InstanceState) : Option Nat :=
  if s._flags then s._handle else none

end Instance

/-- A live owning instance used as a concrete counterexample input. -/
def instAOwning : InstanceState := ⟨some 1, true, ∅, 10⟩

/-- A second live owning instance with a different handle. -/
def instBOwning : InstanceState := ⟨some 2, true, ∅, 20⟩

/-- Counterexample to claim C4: after b = std::move(a) with both a and b
holding live owned handles, the moved-from a holds b's previous handle
(some 2), not a null handle, and its destruction destroys that handle
rather than being a no-op. -/
theorem claim_C4_counterexample :
    (Instance.moveAssign instBOwning instAOwning).2._handle = some 2 ∧
    Instance.destructorDestroys
      (Instance.moveAssign instBOwning instAOwning).2 = some 2 := by
  decide

/-- Claim C4 as amended: move construction transfers handle, flags and
function pointers and leaves the source with a null handle (and cleared
function pointers), so the source's destruction is a no-op; move assignment
exchanges handle, flags and function pointers of the two objects, so the
destination receives the source's values while the source receives the
destination's previous values, and the moved-from instance has a null handle
with no-op destruction exactly when the destination's handle was null before
the assignment. -/
theorem claim_C4_amended_move_semantics :
    ∀ a b : InstanceState,
      ((Instance.moveConstruct a).1._handle = a._handle ∧
       (Instance.moveConstruct a).1._flags = a._flags ∧
       (Instance.moveConstruct a).1._functionPointers = a._functionPointers) ∧
      ((Instance.moveConstruct a).2._handle = none ∧
       Instance.destructorDestroys (Instance.moveConstruct a).2 = none) ∧
      ((Instance.moveAssign b a).1._handle = a._handle ∧
       (Instance.moveAssign b a).1._flags = a._flags ∧
       (Instance.moveAssign b a).1._functionPointers = a._functionPointers ∧
       (Instance.moveAssign b a).2._handle = b._handle ∧
       (Instance.moveAssign b a).2._flags = b._flags ∧
       (Instance.moveAssign b a).2._functionPointers = b._functionPointers) ∧
      (b._handle = none →
        (Instance.moveAssign b a).2._handle = none ∧
        Instance.destructorDestroys (Instance.moveAssign b a).2 = none) := by
  intro a b
  refine ⟨⟨rfl, rfl, rfl⟩, ⟨rfl, ?_⟩, ⟨rfl, rfl, rfl, rfl, rfl, rfl⟩, ?_⟩
  · simp [Instance.destructorDestroys, Instance.moveConstruct]
  · intro hb
    refine ⟨hb, ?_⟩
    simp [Instance.destructorDestroys, Instance.moveAssign, hb]

/-- Witness for the amended claim C4 at a concrete pair: moving into a
NoCreate (null-handle) instance does leave the source null with a no-op
destructor. -/
theorem claim_C4_witness :
    (Instance.moveAssign ⟨none, false, ∅, 0⟩ instAOwning).1._handle =
      instAOwning._handle ∧
    (Instance.moveAssign ⟨none, false, ∅, 0⟩ instAOwning).2._handle = none ∧
    Instance.destructorDestroys
      (Instance.moveAssign ⟨none, false, ∅, 0⟩ instAOwning).2 = none := by
  have h := claim_C4_amended_move_semantics instAOwning ⟨none, false, ∅, 0⟩
  exact ⟨h.2.2.1.1, (h.2.2.2 rfl).1, (h.2.2.2 rfl).2⟩

/-- Claim C10: move assignment exchanges handle, flags and function-pointer
table between the two objects rather than clearing the source, so the
destructor action of each resulting object equals the destructor action of
the original whose state it received -- every non-null owned handle is still
destroyed exactly once, by whichever object ends up holding it. -/
theorem claim_C10_move_assign_exchanges :
    ∀ a b : InstanceState,
      (Instance.moveAssign b a).1._handle = a._handle ∧
      (Instance.moveAssign b a).2._handle = b._handle ∧
      Instance.destructorDestroys (Instance.moveAssign b a).1 =
        Instance.destructorDestroys a ∧
      Instance.destructorDestroys (Instance.moveAssign b a).2 =
        Instance.destructorDestroys b := by
  intro a b
  refine ⟨rfl, rfl, ?_, ?_⟩ <;>
    simp [Instance.destructorDestroys, Instance.moveAssign]

theorem strAppendAssoc (a b c : String) : a ++ b ++ c = a ++ (b ++ c) := by
  cases a with
  | mk la =>
    cases b with
    | mk lb =>
      cases c with
      | mk lc => exact congrArg String.mk (List.append_assoc la lb lc)

/-- One Corrade Debug{} statement: the printed items joined by single
spaces. -/
def debugItems : List String → String
  | [] => ""
  | [x] => x
  | x :: xs => x ++ " " ++ debugItems xs

/-- One Corrade Debug{} statement produces one newline-terminated line. -/
def debugLine (items : List String) : String := debugItems items ++ "\n"

/-- Concatenation of the lines printed by successive Debug{} statements. -/
def concatStrings : List String → String
  | [] => ""
  | x :: xs => x ++ concatStrings xs

theorem debugLine_indent (n : String) :
    debugLine ["   ", n] = "    " ++ (n ++ "\n") := by
  show ("   " ++ (" " ++ n)) ++ "\n" = "    " ++ (n ++ "\n")
  rw [← strAppendAssoc "   " " " n,
    show ("   " ++ " " : String) = "    " by decide, strAppendAssoc]

/-- The Debug output produced by the Instance constructor on successful
creation (Instance.cpp:464-480): with verbose logging, if the enabled layer
count is nonzero, one header Debug line, then one Debug line per enabled
layer name ("   " followed by the name, which Debug joins with a space);
then the same for extensions.  Reading ppEnabledLayerNames[0..count) and
ppEnabledExtensionNames[0..count) is modelled by take.  Without verbose
logging nothing is printed. -/
def instanceConstructionLog (s : InstanceCreateInfoState) : String :=
  if s.verboseLog then
    (if s.enabledLayerCount ≠ 0 then
      debugLine ["Enabled instance layers:"] ++
        concatStrings ((s.layers.take s.enabledLayerCount).map
          (fun n => debugLine ["   ", n]))
     else "") ++
    (if s.enabledExtensionCount ≠ 0 then
      debugLine ["Enabled instance extensions:"] ++
        concatStrings ((s.extensions.take s.enabledExtensionCount).map
          (fun n => debugLine ["   ", n]))
     else "")
  else ""

/-- Claim C8: with verbose logging, the diagnostic output on successful
creation is the header "Enabled instance layers:" followed by one
four-space-indented line per enabled layer name in request order, then the
header "Enabled instance extensions:" followed by one indented line per
enabled extension name in request order; a category with zero enabled
entries contributes no header and no output at all.  Stated for builder
states whose counts match their name lists, which holds for every state the
builder produces. -/
theorem claim_C8_verbose_log_shape :
    ∀ s : InstanceCreateInfoState, s.verboseLog = true →
      s.enabledLayerCount = s.layers.length →
      s.enabledExtensionCount = s.extensions.length →
      instanceConstructionLog s =
        (if s.layers = [] then "" else
          "Enabled instance layers:\n" ++
            concatStrings (s.layers.map (fun n => "    " ++ (n ++ "\n")))) ++
        (if s.extensions = [] then "" else
          "Enabled instance extensions:\n" ++
            concatStrings (s.extensions.map (fun n => "    " ++ (n ++ "\n")))) := by
  intro s hv hc1 hc2
  have hmapfun : (fun n => debugLine ["   ", n]) =
      (fun n : String => "    " ++ (n ++ "\n")) := funext debugLine_indent
  have hheadL : debugLine ["Enabled instance layers:"] =
      "Enabled instance layers:\n" := by decide
  have hheadE : debugLine ["Enabled instance extensions:"] =
      "Enabled instance extensions:\n" := by decide
  simp only [instanceConstructionLog, hv, if_true, hc1, hc2,
    List.take_length, hmapfun, hheadL, hheadE]
  by_cases h1 : s.layers = [] <;> by_cases h2 : s.extensions = [] <;>
    simp [h1, h2, List.length_eq_zero]

/-- The spec's end-to-end scenario as a builder state: verbose logging, the
Khronos validation layer, and the two debug extensions, built through the
real builder calls. -/
def verboseScenario : InstanceCreateInfoState :=
  InstanceCreateInfo.applyCalls (InstanceCreateInfo.construct true [] [])
    [BuilderCall.addLayers ["VK_LAYER_KHRONOS_validation"],
     BuilderCall.addExtensions
       ["VK_EXT_debug_report", "VK_EXT_validation_features"]]

/-- Witness for claim C8 at the spec's end-to-end scenario: the exact
diagnostic text. -/
theorem claim_C8_witness :
    instanceConstructionLog verboseScenario =
      "Enabled instance layers:\n    VK_LAYER_KHRONOS_validation\nEnabled instance extensions:\n    VK_EXT_debug_report\n    VK_EXT_validation_features\n" := by
  rw [claim_C8_verbose_log_shape verboseScenario (by decide) (by decide)
    (by decide)]
  decide

end Magnum.Vk
